import Mathlib

set_option autoImplicit false

/-!
Shallow embedding of `lib/distributed_runtime/request_handler.cc` (the
`RequestHandler` class: its `FunctionCache` and the two request handlers
`HandleRemoteRegister` and `HandleRemoteExecute`).

External collaborators that the spec declares out of scope (the MLIR-to-BEF
compiler, the BEF loader `BEFFile::Open`, the device manager, the remote
object store, and the execution engine `Function::Execute`) are modelled as
function parameters.  The handler logic itself is translated line by line
from the source.
-/

namespace Tfrt

/-- Wire shape of a device-qualified remote object id
(`{prefix_id, local_id, device}`). -/
structure RemoteObjectIdWire where
  prefix_id : Nat
  local_id : Nat
  device : String
deriving DecidableEq

/-- A value held in the remote object store or produced as an execution
result.  The only observation the dispatcher makes of a value is
`SerializeTensorMetadata(v.get<Tensor>().metadata())`; the field `meta`
is that serialization. -/
structure Val where
  meta : String
deriving DecidableEq

/-- A function inside a BEF file: its name and its declared argument and
result types.  The dispatcher only ever compares `GetName()` strings of
types, so a type is represented by its name string. -/
structure Function where
  name : String
  argument_types : List String
  result_types : List String
deriving DecidableEq

/-- A parsed BEF file: the list of functions it declares. -/
structure BEFFile where
  functions : List Function
deriving DecidableEq

/-- `BEFFile::GetFunction`: look up a declared function by name. -/
def BEFFile.GetFunction (f : BEFFile) (fname : String) : Option Function :=
  f.functions.find? (fun g => g.name == fname)

/-- Compiled bytes (`BEFBuffer`). -/
abbrev BEFBuffer := List Nat

/-- One entry of the cache: the parsed file together with its backing
buffer (lines 58–61). -/
structure CachedBEF where
  bef_file : BEFFile
  bef_buffer : BEFBuffer
deriving DecidableEq

/-- `RequestHandler::FunctionCache`: the map from program name to
`CachedBEF` (line 63), represented as its lookup function. -/
structure FunctionCache where
  cached_bef : String → Option CachedBEF

/-- The empty cache (state of a freshly constructed `RequestHandler`). -/
def FunctionCache.empty : FunctionCache := ⟨fun _ => none⟩

/-- `FunctionCache::Register` (lines 67–81).  `open_bef` models the
external loader `BEFFile::Open` (it may fail).  On load failure the
function logs and returns with no cache mutation; on success it inserts or
replaces the entry under `program_name` with the parsed file and the
buffer. -/
def FunctionCache.Register (c : FunctionCache)
    (open_bef : BEFBuffer → Option BEFFile)
    (program_name : String) (bef_buffer : BEFBuffer) : FunctionCache :=
  match open_bef bef_buffer with
  | none => c
  | some bef_file =>
      ⟨fun k => if k = program_name then some ⟨bef_file, bef_buffer⟩
                else c.cached_bef k⟩

/-- `FunctionCache::Prepare` (lines 83–91): return a reference to the
cached BEF file under the name, or an empty reference. -/
def FunctionCache.Prepare (c : FunctionCache) (program_name : String) :
    Option BEFFile :=
  (c.cached_bef program_name).map CachedBEF.bef_file

/-- Wire shape of a register request. -/
structure RemoteRegisterInvocation where
  program_name : String
  program : String

/-- `RequestHandler::HandleRemoteRegister` (lines 100–111).
`convert_mlir_src_to_bef` models the external compiler
`ConvertMLIRSrcToBEF` (empty output means failure).  On empty output the
handler logs and returns; otherwise it registers the buffer. -/
def HandleRemoteRegister (convert_mlir_src_to_bef : String → BEFBuffer)
    (open_bef : BEFBuffer → Option BEFFile)
    (c : FunctionCache) (request : RemoteRegisterInvocation) :
    FunctionCache :=
  let bef_buffer := convert_mlir_src_to_bef request.program
  if bef_buffer.isEmpty then c
  else c.Register open_bef request.program_name bef_buffer

/-- One output descriptor of an execute request. -/
structure OutputDesc where
  id : RemoteObjectIdWire
  need_metadata : Bool
deriving DecidableEq

/-- Wire shape of an execute request.  The `entry_function` field is
modelled from the spec: the declaration of `RemoteExecuteInvocation` is
not among the analysed sources and the spec gives the wire shape
`{program_name, entry_function, inputs, outputs}`.  The handler code in
`request_handler.cc` never reads this field. -/
structure RemoteExecuteInvocation where
  program_name : String
  entry_function : String
  inputs : List RemoteObjectIdWire
  outputs : List OutputDesc

/-- Wire shape of the execute response (`ok` flag plus serialized
metadata strings). -/
structure RemoteExecuteInvocationResult where
  ok : Bool
  metadata : List String
deriving DecidableEq

/-- An argument passed to `Function::Execute`: either the dispatcher's own
distributed-context value (line 158) or a value fetched from the remote
object store (line 181). -/
inductive Arg where
  | distContext : Arg
  | value : Val → Arg
deriving DecidableEq

/-- `RemoteObjectId` as used for store keys: `(prefix_id, local_id,
device)`; the device handle is identified by the name it was resolved
from.  Two ids are equal iff all three fields are equal. -/
structure RemoteObjectId where
  prefix_id : Nat
  local_id : Nat
  device : String
deriving DecidableEq

/-- Build the store key from a wire id (lines 178 and 196). -/
def keyOf (id : RemoteObjectIdWire) : RemoteObjectId :=
  ⟨id.prefix_id, id.local_id, id.device⟩

/-- External collaborators used by `HandleRemoteExecute`:
`device_exists` models `DeviceManager::GetDeviceRef` success;
`get_remote_object` models `RemoteObjectManager::GetRemoteObject` (an
absent entry still yields a usable pending value, so it is total);
`execute` models `Function::Execute`: result cell `i` of invoking `fn` on
the given arguments eventually holds `execute fn args i`. -/
structure Env where
  device_exists : String → Bool
  get_remote_object : RemoteObjectId → Val
  execute : Function → List Arg → Nat → Val

/-- The observable effects of one `HandleRemoteExecute` call:
`responses` lists the invocations of the completion callback `done`, in
order; `published` lists the `SetRemoteObject` calls, in order (they all
happen before the final `done`); `invoked` records the `Function::Execute`
call if one was reached.  The model assumes every result value eventually
becomes ready, so the `RunWhenReady` continuation fires. -/
structure ExecuteOutcome where
  responses : List RemoteExecuteInvocationResult
  published : List (RemoteObjectId × Val)
  invoked : Option (Function × List Arg)
deriving DecidableEq

/-- Outcome of a failure path that invokes `done` with the untouched
response (`ok = false`, empty metadata) and performs nothing else. -/
def failOutcome : ExecuteOutcome := ⟨[⟨false, []⟩], [], none⟩

/-- Input-resolution loop (lines 168–182): for each input id resolve its
device; the first unresolvable device aborts with `none`; otherwise fetch
the value for the device-qualified id from the remote object store. -/
def resolveInputs (env : Env) : List RemoteObjectIdWire → Option (List Val)
  | [] => some []
  | id :: rest =>
      if env.device_exists id.device then
        (resolveInputs env rest).map
          (fun vs => env.get_remote_object (keyOf id) :: vs)
      else none

/-- Number of implicit distributed-context arguments (lines 154–160): one
iff the function's first declared argument type is `!dist.dist_context`. -/
def numDistContextArgs (fn : Function) : Nat :=
  if fn.argument_types.head? = some "!dist.dist_context" then 1 else 0

/-- The argument list handed to `Function::Execute`: the dispatcher's
context injected at position 0 when the first declared argument type is
the distributed-context type, followed by the resolved input values. -/
def injectedArgs (fn : Function) (vals : List Val) : List Arg :=
  (if fn.argument_types.head? = some "!dist.dist_context"
     then [Arg.distContext] else [])
  ++ vals.map Arg.value

/-- Output-publication loop (lines 187–198): for each output, starting at
result index `i`, resolve its device; on the first unresolvable device
stop with `false` (a failure `done` follows); otherwise record the
`SetRemoteObject(output_id, results[i])` call. -/
def publishOutputs (env : Env) (results : Nat → Val) :
    List OutputDesc → Nat → List (RemoteObjectId × Val) × Bool
  | [], _ => ([], true)
  | o :: rest, i =>
      if env.device_exists o.id.device then
        let p := publishOutputs env results rest (i + 1)
        ((keyOf o.id, results i) :: p.1, p.2)
      else ([], false)

/-- The `RunWhenReady` continuation (lines 203–222): walk the outputs with
the accumulated metadata `acc`; for a metadata-requested output whose
declared result type is `!t.tensor`, append the serialized metadata of
result `i`; for a metadata-requested output of any other type, invoke
`done` with the response as accumulated so far (`ok` still `false`);
after the last output, set `ok = true` and invoke `done`. -/
def buildMetadata (fn : Function) (results : Nat → Val) :
    List OutputDesc → Nat → List String → RemoteExecuteInvocationResult
  | [], _, acc => ⟨true, acc⟩
  | o :: rest, i, acc =>
      if o.need_metadata then
        if fn.result_types.getD i "" = "!t.tensor" then
          buildMetadata fn results rest (i + 1) (acc ++ [(results i).meta])
        else ⟨false, acc⟩
      else buildMetadata fn results rest (i + 1) acc

/-- Tail of the execute path after input resolution succeeded (lines
183–222): invoke the function, publish each (possibly pending) result
under its output id, and run the completion continuation.  If an output
device cannot be resolved, `done` fires with the untouched failure
response after the earlier outputs were already published. -/
def dispatchExecute (env : Env) (request : RemoteExecuteInvocation)
    (fn : Function) (vals : List Val) : ExecuteOutcome :=
  let args := injectedArgs fn vals
  let results := env.execute fn args
  let p := publishOutputs env results request.outputs 0
  if p.2 then
    ⟨[buildMetadata fn results request.outputs 0 []], p.1, some (fn, args)⟩
  else
    ⟨[⟨false, []⟩], p.1, some (fn, args)⟩

/-- Execute path once the function is resolved (lines 134–222): the
result-count check, the distributed-context injection with the
argument-count check — whose failure branch (line 166) returns without
invoking `done` — and the input-resolution loop. -/
def handleWithFn (env : Env) (request : RemoteExecuteInvocation)
    (fn : Function) : ExecuteOutcome :=
  if fn.result_types.length ≠ request.outputs.length then failOutcome
  else if fn.argument_types.length
      ≠ numDistContextArgs fn + request.inputs.length then
    ⟨[], [], none⟩
  else
    match resolveInputs env request.inputs with
    | none => failOutcome
    | some vals => dispatchExecute env request fn vals

/-- Execute path once the BEF file is found (lines 126–133): the function
is looked up in the file by the request's `program_name` (line 126). -/
def handleWithFile (env : Env) (request : RemoteExecuteInvocation)
    (bef_file : BEFFile) : ExecuteOutcome :=
  match bef_file.GetFunction request.program_name with
  | none => failOutcome
  | some fn => handleWithFn env request fn

/-- `RequestHandler::HandleRemoteExecute` (lines 113–223). -/
def HandleRemoteExecute (env : Env) (cache : FunctionCache)
    (request : RemoteExecuteInvocation) : ExecuteOutcome :=
  match cache.Prepare request.program_name with
  | none => failOutcome
  | some bef_file => handleWithFile env request bef_file

/-! Specification-side descriptions, used to state the claims. -/

/-- The metadata list the spec prescribes for a successful response: one
serialized entry per metadata-requested output, in request order, entry
taken from the result at that output's position. -/
def expectedMetadata (results : Nat → Val) :
    List OutputDesc → Nat → List String
  | [], _ => []
  | o :: rest, i =>
      if o.need_metadata then
        (results i).meta :: expectedMetadata results rest (i + 1)
      else expectedMetadata results rest (i + 1)

/-- Position of the first metadata-requested output whose declared result
type is not the tensor type, scanning from position `i`. -/
def firstBadMeta (fn : Function) : List OutputDesc → Nat → Option Nat
  | [], _ => none
  | o :: rest, i =>
      if o.need_metadata = true ∧ fn.result_types.getD i "" ≠ "!t.tensor"
        then some i
      else firstBadMeta fn rest (i + 1)

/-- What `Function::Execute` is called with, as a function of the arity
rule and input-device resolution: invoked iff the declared argument count
equals the implicit-context count plus the input count and every input
device resolves; the context, when injected, is argument 0. -/
def invocationSpec (env : Env) (req : RemoteExecuteInvocation)
    (fn : Function) : Option (Function × List Arg) :=
  if fn.argument_types.length = numDistContextArgs fn + req.inputs.length
  then (resolveInputs env req.inputs).map
      (fun vals => (fn, injectedArgs fn vals))
  else none

/-- The `SetRemoteObject` calls for a list of outputs whose devices all
resolve, starting at result index `i`. -/
def publishedPairs (results : Nat → Val) :
    List OutputDesc → Nat → List (RemoteObjectId × Val)
  | [], _ => []
  | o :: rest, i => (keyOf o.id, results i) :: publishedPairs results rest (i + 1)

/-- Fold a list of `(name, buffer)` registrations over the empty cache. -/
def applyRegisters (open_bef : BEFBuffer → Option BEFFile)
    (ops : List (String × BEFBuffer)) : FunctionCache :=
  ops.foldl (fun c nb => c.Register open_bef nb.1 nb.2) FunctionCache.empty

/-! Concrete instances used to evaluate the theorems on closed inputs. -/

/-- A cache holding exactly one program. -/
def cacheOf (program_name : String) (bef : BEFFile) : FunctionCache :=
  ⟨fun k => if k = program_name then some ⟨bef, [0]⟩ else none⟩

/-- Environment where every device resolves; result `i` has metadata
`"m" ++ toString i`. -/
def envW : Env := ⟨fun _ => true, fun _ => ⟨"vin"⟩, fun _ _ i => ⟨"m" ++ toString i⟩⟩

/-- Environment where only device `"d0"` resolves. -/
def envNoDev : Env :=
  ⟨fun d => d == "d0", fun _ => ⟨"vin"⟩, fun _ _ i => ⟨"m" ++ toString i⟩⟩

def fnC1 : Function := ⟨"p1", ["!t.tensor"], []⟩
def cacheC1 : FunctionCache := cacheOf "p1" ⟨[fnC1]⟩
def reqC1 : RemoteExecuteInvocation := ⟨"p1", "p1", [], []⟩

def fnC2 : Function := ⟨"p2", [], ["!t.tensor", "!dist.other"]⟩
def cacheC2 : FunctionCache := cacheOf "p2" ⟨[fnC2]⟩
def reqC2 : RemoteExecuteInvocation :=
  ⟨"p2", "p2", [], [⟨⟨1, 1, "d0"⟩, true⟩, ⟨⟨1, 2, "d0"⟩, true⟩]⟩

def fnC3 : Function := ⟨"p3", [], []⟩
def befC3 : BEFFile := ⟨[fnC3]⟩
def cacheC3 : FunctionCache := cacheOf "p3" befC3
def reqC3 : RemoteExecuteInvocation := ⟨"p3", "f3", [], []⟩

def befX3 : BEFFile := ⟨[⟨"z3", [], []⟩]⟩
def cacheX3 : FunctionCache := cacheOf "q3" befX3
def reqX3 : RemoteExecuteInvocation := ⟨"q3", "q3", [], []⟩

def befW4 : BEFFile := ⟨[⟨"f4", [], []⟩]⟩
def openW4 : BEFBuffer → Option BEFFile :=
  fun b => if b = [1] then some befW4 else none

def befP1 : BEFFile := ⟨[⟨"f5a", [], []⟩]⟩
def befP2 : BEFFile := ⟨[⟨"f5b", [], []⟩]⟩
def openW5 : BEFBuffer → Option BEFFile :=
  fun b => if b = [1] then some befP1 else if b = [2] then some befP2 else none

def convertEmptyW : String → BEFBuffer := fun _ => []
def regReqW : RemoteRegisterInvocation := ⟨"p6", "module"⟩

def fnC7 : Function := ⟨"p7", ["!t.tensor"], []⟩
def befC7 : BEFFile := ⟨[fnC7]⟩
def cacheC7 : FunctionCache := cacheOf "p7" befC7
def reqC7 : RemoteExecuteInvocation := ⟨"p7", "p7", [⟨3, 4, "nodev"⟩], []⟩

def fnW7 : Function := ⟨"pw7", ["!dist.dist_context", "!t.tensor"], []⟩
def befW7 : BEFFile := ⟨[fnW7]⟩
def cacheW7 : FunctionCache := cacheOf "pw7" befW7
def reqW7 : RemoteExecuteInvocation := ⟨"pw7", "pw7", [⟨5, 6, "d0"⟩], []⟩

def fnC8 : Function := ⟨"p8", ["!t.tensor"], []⟩
def befC8 : BEFFile := ⟨[fnC8]⟩
def cacheC8 : FunctionCache := cacheOf "p8" befC8
def reqC8 : RemoteExecuteInvocation := ⟨"p8", "p8", [⟨3, 4, "nodev"⟩], []⟩

def fnC8b : Function := ⟨"p8b", ["!t.tensor", "!t.tensor"], []⟩
def befC8b : BEFFile := ⟨[fnC8b]⟩
def cacheC8b : FunctionCache := cacheOf "p8b" befC8b
def reqC8b : RemoteExecuteInvocation := ⟨"p8b", "p8b", [⟨3, 4, "nodev"⟩], []⟩

def fnC9 : Function := ⟨"p9", [], ["!t.tensor", "!t.tensor"]⟩
def befC9 : BEFFile := ⟨[fnC9]⟩
def cacheC9 : FunctionCache := cacheOf "p9" befC9
def reqC9 : RemoteExecuteInvocation :=
  ⟨"p9", "p9", [], [⟨⟨1, 1, "d0"⟩, true⟩, ⟨⟨1, 2, "d0"⟩, false⟩]⟩

def fnC10 : Function := ⟨"p10", [], ["!t.tensor", "!t.tensor"]⟩
def befC10 : BEFFile := ⟨[fnC10]⟩
def cacheC10 : FunctionCache := cacheOf "p10" befC10
def outGood : OutputDesc := ⟨⟨2, 1, "d0"⟩, false⟩
def outBad : OutputDesc := ⟨⟨2, 2, "nodev"⟩, false⟩
def reqC10 : RemoteExecuteInvocation := ⟨"p10", "p10", [], [outGood, outBad]⟩

/-! Helper lemmas about the cache. -/

theorem Prepare_Register_self (open_bef : BEFBuffer → Option BEFFile)
    (c : FunctionCache) (name : String) (buf : BEFBuffer) (bef : BEFFile)
    (h : open_bef buf = some bef) :
    (c.Register open_bef name buf).Prepare name = some bef := by
  unfold FunctionCache.Register
  rw [h]
  unfold FunctionCache.Prepare
  simp

theorem Prepare_Register_ne (open_bef : BEFBuffer → Option BEFFile)
    (c : FunctionCache) (name name' : String) (buf : BEFBuffer)
    (h : name' ≠ name) :
    (c.Register open_bef name buf).Prepare name' = c.Prepare name' := by
  unfold FunctionCache.Register
  cases hopen : open_bef buf with
  | none => rfl
  | some bef => unfold FunctionCache.Prepare; simp [h]

theorem foldl_Register_absent (open_bef : BEFBuffer → Option BEFFile) :
    ∀ (ops : List (String × BEFBuffer)) (c : FunctionCache) (name : String),
      name ∉ ops.map Prod.fst →
      (ops.foldl (fun c nb => c.Register open_bef nb.1 nb.2) c).Prepare name
        = c.Prepare name := by
  intro ops
  induction ops with
  | nil => intro c name _; rfl
  | cons nb rest ih =>
      intro c name h
      simp only [List.map_cons, List.mem_cons] at h
      push_neg at h
      rw [List.foldl_cons, ih _ name h.2]
      exact Prepare_Register_ne open_bef c nb.1 name nb.2 h.1

/-! Helper lemmas about the execute path. -/

theorem resolveInputs_eq_none (env : Env) :
    ∀ (ids : List RemoteObjectIdWire),
      (∃ id ∈ ids, env.device_exists id.device = false) →
      resolveInputs env ids = none := by
  intro ids
  induction ids with
  | nil => rintro ⟨id, hmem, _⟩; cases hmem
  | cons a rest ih =>
      rintro ⟨id, hmem, hdev⟩
      unfold resolveInputs
      by_cases hd : env.device_exists a.device = true
      · rw [if_pos hd]
        have hmem' : id ∈ rest := by
          rcases List.mem_cons.mp hmem with h | h
          · subst h; rw [hdev] at hd; cases hd
          · exact h
        rw [ih ⟨id, hmem', hdev⟩]
        rfl
      · rw [if_neg hd]

theorem publishOutputs_all_good (env : Env) (results : Nat → Val) :
    ∀ (outputs : List OutputDesc) (i : Nat),
      (∀ o ∈ outputs, env.device_exists o.id.device = true) →
      publishOutputs env results outputs i
        = (publishedPairs results outputs i, true) := by
  intro outputs
  induction outputs with
  | nil => intro i _; rfl
  | cons o rest ih =>
      intro i h
      have ho := h o (List.mem_cons_self o rest)
      have hrest := fun o' ho' => h o' (List.mem_cons_of_mem o ho')
      unfold publishOutputs
      rw [if_pos ho, ih (i + 1) hrest]
      rfl

theorem publishOutputs_first_bad (env : Env) (results : Nat → Val)
    (bad : OutputDesc) (hb : env.device_exists bad.id.device = false) :
    ∀ (good rest : List OutputDesc) (i : Nat),
      (∀ o ∈ good, env.device_exists o.id.device = true) →
      publishOutputs env results (good ++ bad :: rest) i
        = (publishedPairs results good i, false) := by
  intro good
  induction good with
  | nil =>
      intro rest i _
      simp [publishOutputs, publishedPairs, hb]
  | cons o g ih =>
      intro rest i h
      have ho := h o (List.mem_cons_self o g)
      have hg := fun o' ho' => h o' (List.mem_cons_of_mem o ho')
      rw [List.cons_append]
      unfold publishOutputs
      rw [if_pos ho, ih rest (i + 1) hg]
      rfl

theorem firstBadMeta_le (fn : Function) :
    ∀ (outputs : List OutputDesc) (i k : Nat),
      firstBadMeta fn outputs i = some k → i ≤ k := by
  intro outputs
  induction outputs with
  | nil => intro i k h; simp [firstBadMeta] at h
  | cons o rest ih =>
      intro i k h
      unfold firstBadMeta at h
      split at h
      · cases h; exact Nat.le_refl _
      · have := ih (i + 1) k h
        omega

theorem buildMetadata_cons_tensor (fn : Function) (results : Nat → Val)
    (o : OutputDesc) (rest : List OutputDesc) (i : Nat) (acc : List String)
    (hneed : o.need_metadata = true)
    (htype : fn.result_types.getD i "" = "!t.tensor") :
    buildMetadata fn results (o :: rest) i acc
      = buildMetadata fn results rest (i + 1) (acc ++ [(results i).meta]) := by
  simp only [buildMetadata]
  rw [if_pos hneed, if_pos htype]

theorem buildMetadata_cons_bad (fn : Function) (results : Nat → Val)
    (o : OutputDesc) (rest : List OutputDesc) (i : Nat) (acc : List String)
    (hneed : o.need_metadata = true)
    (htype : fn.result_types.getD i "" ≠ "!t.tensor") :
    buildMetadata fn results (o :: rest) i acc = ⟨false, acc⟩ := by
  simp only [buildMetadata]
  rw [if_pos hneed, if_neg htype]

theorem buildMetadata_cons_skip (fn : Function) (results : Nat → Val)
    (o : OutputDesc) (rest : List OutputDesc) (i : Nat) (acc : List String)
    (hneed : ¬o.need_metadata = true) :
    buildMetadata fn results (o :: rest) i acc
      = buildMetadata fn results rest (i + 1) acc := by
  simp only [buildMetadata]
  rw [if_neg hneed]

theorem expectedMetadata_cons_need (results : Nat → Val) (o : OutputDesc)
    (rest : List OutputDesc) (i : Nat) (hneed : o.need_metadata = true) :
    expectedMetadata results (o :: rest) i
      = (results i).meta :: expectedMetadata results rest (i + 1) := by
  simp only [expectedMetadata]
  rw [if_pos hneed]

theorem expectedMetadata_cons_skip (results : Nat → Val) (o : OutputDesc)
    (rest : List OutputDesc) (i : Nat) (hneed : ¬o.need_metadata = true) :
    expectedMetadata results (o :: rest) i
      = expectedMetadata results rest (i + 1) := by
  simp only [expectedMetadata]
  rw [if_neg hneed]

theorem buildMetadata_ok (fn : Function) (results : Nat → Val) :
    ∀ (outputs : List OutputDesc) (i : Nat) (acc : List String),
      (buildMetadata fn results outputs i acc).ok = true →
      (buildMetadata fn results outputs i acc).metadata
        = acc ++ expectedMetadata results outputs i := by
  intro outputs
  induction outputs with
  | nil => intro i acc _; simp [buildMetadata, expectedMetadata]
  | cons o rest ih =>
      intro i acc h
      by_cases hneed : o.need_metadata = true
      · by_cases htype : fn.result_types.getD i "" = "!t.tensor"
        · rw [buildMetadata_cons_tensor fn results o rest i acc hneed htype] at h ⊢
          rw [ih (i + 1) (acc ++ [(results i).meta]) h,
              expectedMetadata_cons_need results o rest i hneed]
          simp
        · rw [buildMetadata_cons_bad fn results o rest i acc hneed htype] at h
          cases h
      · rw [buildMetadata_cons_skip fn results o rest i acc hneed] at h ⊢
        rw [ih (i + 1) acc h,
            expectedMetadata_cons_skip results o rest i hneed]

theorem buildMetadata_not_ok (fn : Function) (results : Nat → Val) :
    ∀ (outputs : List OutputDesc) (i : Nat) (acc : List String),
      (buildMetadata fn results outputs i acc).ok = false →
      ∃ k, firstBadMeta fn outputs i = some k
        ∧ (buildMetadata fn results outputs i acc).metadata
            = acc ++ expectedMetadata results (outputs.take (k - i)) i := by
  intro outputs
  induction outputs with
  | nil => intro i acc h; simp [buildMetadata] at h
  | cons o rest ih =>
      intro i acc h
      by_cases hneed : o.need_metadata = true
      · by_cases htype : fn.result_types.getD i "" = "!t.tensor"
        · rw [buildMetadata_cons_tensor fn results o rest i acc hneed htype] at h ⊢
          obtain ⟨k, hk, hmeta⟩ := ih (i + 1) (acc ++ [(results i).meta]) h
          refine ⟨k, ?_, ?_⟩
          · simp only [firstBadMeta]
            rw [if_neg (fun hc => hc.2 htype)]
            exact hk
          · have hik : i + 1 ≤ k := firstBadMeta_le fn rest (i + 1) k hk
            have hsub : k - i = (k - (i + 1)) + 1 := by omega
            rw [hmeta, hsub, List.take_succ_cons,
                expectedMetadata_cons_need results o _ i hneed]
            simp
        · refine ⟨i, ?_, ?_⟩
          · simp only [firstBadMeta]
            rw [if_pos ⟨hneed, htype⟩]
          · rw [buildMetadata_cons_bad fn results o rest i acc hneed htype]
            simp [expectedMetadata]
      · rw [buildMetadata_cons_skip fn results o rest i acc hneed] at h ⊢
        obtain ⟨k, hk, hmeta⟩ := ih (i + 1) acc h
        refine ⟨k, ?_, ?_⟩
        · simp only [firstBadMeta]
          rw [if_neg (fun hc => hneed hc.1)]
          exact hk
        · have hik : i + 1 ≤ k := firstBadMeta_le fn rest (i + 1) k hk
          have hsub : k - i = (k - (i + 1)) + 1 := by omega
          rw [hmeta, hsub, List.take_succ_cons,
              expectedMetadata_cons_skip results o _ i hneed]

theorem expectedMetadata_length (results : Nat → Val) :
    ∀ (outputs : List OutputDesc) (i : Nat),
      (expectedMetadata results outputs i).length
        = (outputs.filter (fun o => o.need_metadata)).length := by
  intro outputs
  induction outputs with
  | nil => intro i; rfl
  | cons o rest ih =>
      intro i
      by_cases hneed : o.need_metadata = true <;>
        simp [expectedMetadata, hneed, List.filter_cons, ih]

theorem dispatchExecute_invoked (env : Env) (req : RemoteExecuteInvocation)
    (fn : Function) (vals : List Val) :
    (dispatchExecute env req fn vals).invoked
      = some (fn, injectedArgs fn vals) := by
  simp only [dispatchExecute]
  split <;> rfl

theorem handleWithFn_invoked_eq (env : Env) (req : RemoteExecuteInvocation)
    (g fn : Function) (args : List Arg)
    (h : (handleWithFn env req g).invoked = some (fn, args)) : fn = g := by
  unfold handleWithFn at h
  split at h
  · cases h
  · split at h
    · cases h
    · split at h
      · cases h
      · rw [dispatchExecute_invoked] at h
        exact (Prod.mk.injEq _ _ _ _ ▸ Option.some.injEq _ _ ▸ h).1.symm

theorem handleWithFn_invoked (env : Env) (req : RemoteExecuteInvocation)
    (fn : Function) (hr : fn.result_types.length = req.outputs.length) :
    (handleWithFn env req fn).invoked = invocationSpec env req fn := by
  unfold handleWithFn invocationSpec
  rw [if_neg (by omega)]
  by_cases ha : fn.argument_types.length
      = numDistContextArgs fn + req.inputs.length
  · rw [if_neg (by omega), if_pos ha]
    cases hin : resolveInputs env req.inputs with
    | none => rfl
    | some vals => rw [dispatchExecute_invoked]; rfl
  · rw [if_pos ha, if_neg ha]

/-! Step lemmas for the execute-path control flow. -/

theorem HandleRemoteExecute_none (env : Env) (cache : FunctionCache)
    (req : RemoteExecuteInvocation)
    (hp : cache.Prepare req.program_name = none) :
    HandleRemoteExecute env cache req = failOutcome := by
  unfold HandleRemoteExecute
  rw [hp]

theorem HandleRemoteExecute_some (env : Env) (cache : FunctionCache)
    (req : RemoteExecuteInvocation) (bef : BEFFile)
    (hp : cache.Prepare req.program_name = some bef) :
    HandleRemoteExecute env cache req = handleWithFile env req bef := by
  unfold HandleRemoteExecute
  rw [hp]

theorem handleWithFile_none (env : Env) (req : RemoteExecuteInvocation)
    (bef : BEFFile) (hf : bef.GetFunction req.program_name = none) :
    handleWithFile env req bef = failOutcome := by
  unfold handleWithFile
  rw [hf]

theorem handleWithFile_some (env : Env) (req : RemoteExecuteInvocation)
    (bef : BEFFile) (fn : Function)
    (hf : bef.GetFunction req.program_name = some fn) :
    handleWithFile env req bef = handleWithFn env req fn := by
  unfold handleWithFile
  rw [hf]

theorem handleWithFn_res_mismatch (env : Env) (req : RemoteExecuteInvocation)
    (fn : Function) (h : fn.result_types.length ≠ req.outputs.length) :
    handleWithFn env req fn = failOutcome := by
  unfold handleWithFn
  rw [if_pos h]

theorem handleWithFn_arg_mismatch (env : Env) (req : RemoteExecuteInvocation)
    (fn : Function) (hres : fn.result_types.length = req.outputs.length)
    (h : fn.argument_types.length
        ≠ numDistContextArgs fn + req.inputs.length) :
    handleWithFn env req fn = ⟨[], [], none⟩ := by
  unfold handleWithFn
  rw [if_neg (by omega), if_pos h]

theorem handleWithFn_inputs_none (env : Env) (req : RemoteExecuteInvocation)
    (fn : Function) (hres : fn.result_types.length = req.outputs.length)
    (harg : fn.argument_types.length
        = numDistContextArgs fn + req.inputs.length)
    (hin : resolveInputs env req.inputs = none) :
    handleWithFn env req fn = failOutcome := by
  unfold handleWithFn
  rw [if_neg (by omega), if_neg (by omega), hin]

theorem handleWithFn_inputs_some (env : Env) (req : RemoteExecuteInvocation)
    (fn : Function) (vals : List Val)
    (hres : fn.result_types.length = req.outputs.length)
    (harg : fn.argument_types.length
        = numDistContextArgs fn + req.inputs.length)
    (hin : resolveInputs env req.inputs = some vals) :
    handleWithFn env req fn = dispatchExecute env req fn vals := by
  unfold handleWithFn
  rw [if_neg (by omega), if_neg (by omega), hin]

theorem dispatchExecute_pub_true (env : Env) (req : RemoteExecuteInvocation)
    (fn : Function) (vals : List Val)
    (h : (publishOutputs env (env.execute fn (injectedArgs fn vals))
            req.outputs 0).2 = true) :
    dispatchExecute env req fn vals
      = ⟨[buildMetadata fn (env.execute fn (injectedArgs fn vals))
            req.outputs 0 []],
         (publishOutputs env (env.execute fn (injectedArgs fn vals))
            req.outputs 0).1,
         some (fn, injectedArgs fn vals)⟩ := by
  simp only [dispatchExecute]
  rw [if_pos h]

theorem dispatchExecute_pub_false (env : Env) (req : RemoteExecuteInvocation)
    (fn : Function) (vals : List Val)
    (h : ¬(publishOutputs env (env.execute fn (injectedArgs fn vals))
            req.outputs 0).2 = true) :
    dispatchExecute env req fn vals
      = ⟨[⟨false, []⟩],
         (publishOutputs env (env.execute fn (injectedArgs fn vals))
            req.outputs 0).1,
         some (fn, injectedArgs fn vals)⟩ := by
  simp only [dispatchExecute]
  rw [if_neg h]

/-- Every `done` invocation delivers either the untouched failure
response or the response built by the `RunWhenReady` continuation, and in
the latter case the function was invoked. -/
theorem mem_responses_cases (env : Env) (cache : FunctionCache)
    (req : RemoteExecuteInvocation) (r : RemoteExecuteInvocationResult)
    (hr : r ∈ (HandleRemoteExecute env cache req).responses) :
    r = ⟨false, []⟩
    ∨ ∃ fn args,
        (HandleRemoteExecute env cache req).invoked = some (fn, args)
        ∧ r = buildMetadata fn (env.execute fn args) req.outputs 0 [] := by
  cases hp : cache.Prepare req.program_name with
  | none =>
      rw [HandleRemoteExecute_none env cache req hp] at hr
      left; exact List.mem_singleton.mp hr
  | some bef =>
      rw [HandleRemoteExecute_some env cache req bef hp] at hr ⊢
      cases hf : bef.GetFunction req.program_name with
      | none =>
          rw [handleWithFile_none env req bef hf] at hr
          left; exact List.mem_singleton.mp hr
      | some fn =>
          rw [handleWithFile_some env req bef fn hf] at hr ⊢
          by_cases hres : fn.result_types.length = req.outputs.length
          · by_cases harg : fn.argument_types.length
                = numDistContextArgs fn + req.inputs.length
            · cases hin : resolveInputs env req.inputs with
              | none =>
                  rw [handleWithFn_inputs_none env req fn hres harg hin] at hr
                  left; exact List.mem_singleton.mp hr
              | some vals =>
                  rw [handleWithFn_inputs_some env req fn vals hres harg hin]
                    at hr ⊢
                  by_cases hp2 : (publishOutputs env
                      (env.execute fn (injectedArgs fn vals))
                      req.outputs 0).2 = true
                  · rw [dispatchExecute_pub_true env req fn vals hp2] at hr ⊢
                    right
                    exact ⟨fn, injectedArgs fn vals, rfl,
                           List.mem_singleton.mp hr⟩
                  · rw [dispatchExecute_pub_false env req fn vals hp2] at hr
                    left; exact List.mem_singleton.mp hr
            · rw [handleWithFn_arg_mismatch env req fn hres harg] at hr
              cases hr
          · rw [handleWithFn_res_mismatch env req fn hres] at hr
            left; exact List.mem_singleton.mp hr

/-- C4: after `Register(name, bytes)` succeeds (the loader parses the
bytes into a file `bef`), `Prepare(name)` returns that file, i.e. the
program whose declared functions are those encoded in the bytes; and for
any sequence of registrations that never mentions a name, `Prepare` on
that name returns the empty reference. -/
theorem C4_register_prepare (open_bef : BEFBuffer → Option BEFFile) :
    (∀ (c : FunctionCache) (name : String) (buf : BEFBuffer) (bef : BEFFile),
        open_bef buf = some bef →
        (c.Register open_bef name buf).Prepare name = some bef)
    ∧ (∀ (ops : List (String × BEFBuffer)) (name : String),
        name ∉ ops.map Prod.fst →
        (applyRegisters open_bef ops).Prepare name = none) := by
  constructor
  · intro c name buf bef h
    exact Prepare_Register_self open_bef c name buf bef h
  · intro ops name h
    unfold applyRegisters
    rw [foldl_Register_absent open_bef ops FunctionCache.empty name h]
    rfl

theorem C4_register_prepare_witness :
    ((FunctionCache.empty.Register openW4 "p4" [1]).Prepare "p4" = some befW4)
    ∧ ((applyRegisters openW4 [("p4", [1])]).Prepare "q4" = none) :=
  ⟨(C4_register_prepare openW4).1 FunctionCache.empty "p4" [1] befW4 (by decide),
   (C4_register_prepare openW4).2 [("p4", [1])] "q4" (by decide)⟩

/-- C5: after `Register(name, b1)` then `Register(name, b2)` (both
loads succeeding with programs `p1` and `p2`), `Prepare(name)` returns
`p2` (last-write-wins); and the reference obtained from `Prepare(name)`
between the two registrations is `p1` — a `BEFFile` value is immutable,
so the holder of that reference keeps observing `b1`'s program for the
reference's lifetime regardless of the second registration. -/
theorem C5_reregistration (open_bef : BEFBuffer → Option BEFFile)
    (c : FunctionCache) (name : String) (b1 b2 : BEFBuffer) (p1 p2 : BEFFile)
    (h1 : open_bef b1 = some p1) (h2 : open_bef b2 = some p2) :
    (((c.Register open_bef name b1).Register open_bef name b2).Prepare name
        = some p2)
    ∧ ((c.Register open_bef name b1).Prepare name = some p1) :=
  ⟨Prepare_Register_self open_bef _ name b2 p2 h2,
   Prepare_Register_self open_bef c name b1 p1 h1⟩

theorem C5_reregistration_witness :
    (((FunctionCache.empty.Register openW5 "p5" [1]).Register openW5 "p5" [2]).Prepare "p5"
        = some befP2)
    ∧ ((FunctionCache.empty.Register openW5 "p5" [1]).Prepare "p5" = some befP1) :=
  C5_reregistration openW5 FunctionCache.empty "p5" [1] [2] befP1 befP2
    (by decide) (by decide)

/-- C6: if the compiler yields empty output, or the loader fails to parse
the compiled bytes, the registration handler leaves the program cache
exactly as it was: no entry is created or replaced (the failure is only
logged, which is outside the state modelled here). -/
theorem C6_failed_registration_no_mutation
    (convert : String → BEFBuffer) (open_bef : BEFBuffer → Option BEFFile)
    (c : FunctionCache) (request : RemoteRegisterInvocation)
    (h : convert request.program = []
         ∨ open_bef (convert request.program) = none) :
    HandleRemoteRegister convert open_bef c request = c := by
  unfold HandleRemoteRegister
  rcases h with h | h
  · simp [h]
  · by_cases he : (convert request.program).isEmpty
    · simp [he]
    · simp only [he, Bool.false_eq_true, if_false]
      unfold FunctionCache.Register
      rw [h]

theorem C6_failed_registration_witness :
    HandleRemoteRegister convertEmptyW openW4 FunctionCache.empty regReqW
      = FunctionCache.empty :=
  C6_failed_registration_no_mutation convertEmptyW openW4 FunctionCache.empty
    regReqW (Or.inl rfl)

/-- C1 (refutation at a concrete input): a request whose program is found,
whose function is found, and whose result count matches, but whose
argument count mismatches the declared arity, makes `HandleRemoteExecute`
return without ever invoking the completion callback `done` (line 166
returns without calling it): zero invocations, not exactly one. -/
theorem C1_arg_mismatch_callback_skipped :
    (cacheC1.Prepare reqC1.program_name = some ⟨[fnC1]⟩)
    ∧ (BEFFile.GetFunction ⟨[fnC1]⟩ reqC1.program_name = some fnC1)
    ∧ fnC1.result_types.length = reqC1.outputs.length
    ∧ fnC1.argument_types.length ≠ numDistContextArgs fnC1 + reqC1.inputs.length
    ∧ (HandleRemoteExecute envW cacheC1 reqC1).responses = [] := by decide

/-- C2 (refutation at a concrete input): a request whose function declares
results `[!t.tensor, !dist.other]` with both outputs requesting metadata
receives a response with `ok = false` whose metadata list is *not* empty —
it still holds the entry serialized for the first output before the
type-mismatch failure on the second (lines 210–215 push into the response
and then hand the same response to `done`). -/
theorem C2_partial_metadata_delivered :
    (HandleRemoteExecute envW cacheC2 reqC2).responses = [⟨false, ["m0"]⟩]
    ∧ ((⟨false, ["m0"]⟩ : RemoteExecuteInvocationResult).ok = false)
    ∧ ((⟨false, ["m0"]⟩ : RemoteExecuteInvocationResult).metadata ≠ []) := by
  decide

/-- C2 amended: a response with `ok = false` has an empty metadata list on
every failure path *except* the metadata type-mismatch path, where it
contains exactly the entries serialized before the first metadata-requested
output of non-tensor type (one entry per metadata-requested output
strictly preceding that position, in request order). -/
theorem C2_failure_metadata (env : Env) (cache : FunctionCache)
    (req : RemoteExecuteInvocation) :
    ∀ r ∈ (HandleRemoteExecute env cache req).responses, r.ok = false →
      r.metadata = []
      ∨ ∃ fn args k,
          (HandleRemoteExecute env cache req).invoked = some (fn, args)
          ∧ firstBadMeta fn req.outputs 0 = some k
          ∧ r.metadata
              = expectedMetadata (env.execute fn args) (req.outputs.take k) 0 := by
  intro r hr hok
  rcases mem_responses_cases env cache req r hr with h | ⟨fn, args, hinv, hbuild⟩
  · left; rw [h]
  · rw [hbuild] at hok ⊢
    obtain ⟨k, hk, hmeta⟩ :=
      buildMetadata_not_ok fn (env.execute fn args) req.outputs 0 [] hok
    right
    refine ⟨fn, args, k, hinv, hk, ?_⟩
    rw [hmeta]
    simp

theorem C2_failure_metadata_witness :
    (⟨false, ["m0"]⟩ : RemoteExecuteInvocationResult).metadata = []
    ∨ ∃ fn args k,
        (HandleRemoteExecute envW cacheC2 reqC2).invoked = some (fn, args)
        ∧ firstBadMeta fn reqC2.outputs 0 = some k
        ∧ (⟨false, ["m0"]⟩ : RemoteExecuteInvocationResult).metadata
            = expectedMetadata (envW.execute fn args) (reqC2.outputs.take k) 0 :=
  C2_failure_metadata envW cacheC2 reqC2 ⟨false, ["m0"]⟩ (by decide) rfl

/-- C3 (refutation at a concrete input): the dispatcher resolves the
function by the request's `program_name`, not by its `entry_function`
(line 126 passes `request.program_name` to `GetFunction`): a request whose
`entry_function` names no function in the program still succeeds and
invokes the function named by `program_name`. -/
theorem C3_entry_function_ignored :
    (reqC3.entry_function ≠ reqC3.program_name)
    ∧ (cacheC3.Prepare reqC3.program_name = some befC3)
    ∧ (befC3.GetFunction reqC3.entry_function = none)
    ∧ ((HandleRemoteExecute envW cacheC3 reqC3).invoked = some (fnC3, []))
    ∧ ((HandleRemoteExecute envW cacheC3 reqC3).responses = [⟨true, []⟩]) := by
  decide

/-- C3 amended: the entry function is resolved from the prepared program
by the request's `program_name` (the `entry_function` field is ignored):
when no function of that name exists the request fails with `done`
invoked once, and whenever the dispatcher invokes a function it is the
one found under `program_name`. -/
theorem C3_resolved_by_program_name (env : Env) (cache : FunctionCache)
    (req : RemoteExecuteInvocation) (bef : BEFFile)
    (hp : cache.Prepare req.program_name = some bef) :
    (bef.GetFunction req.program_name = none →
        HandleRemoteExecute env cache req = failOutcome)
    ∧ (∀ fn args,
        (HandleRemoteExecute env cache req).invoked = some (fn, args) →
        bef.GetFunction req.program_name = some fn) := by
  rw [HandleRemoteExecute_some env cache req bef hp]
  constructor
  · intro h
    exact handleWithFile_none env req bef h
  · intro fn args h
    cases hf : bef.GetFunction req.program_name with
    | none =>
        rw [handleWithFile_none env req bef hf] at h
        cases h
    | some g =>
        rw [handleWithFile_some env req bef g hf] at h
        rw [handleWithFn_invoked_eq env req g fn args h]

theorem C3_resolved_by_program_name_witness :
    (befX3.GetFunction reqX3.program_name = none →
        HandleRemoteExecute envW cacheX3 reqX3 = failOutcome)
    ∧ (∀ fn args,
        (HandleRemoteExecute envW cacheX3 reqX3).invoked = some (fn, args) →
        befX3.GetFunction reqX3.program_name = some fn) :=
  C3_resolved_by_program_name envW cacheX3 reqX3 befX3 (by decide)

/-- C7 (refutation at a concrete input): the claim's "invoked iff the
declared argument count equals the input count" fails in the
right-to-left direction: here the counts match (no context injection) yet
the function is never invoked, because the single input's device does not
resolve. -/
theorem C7_arity_match_without_invocation :
    (cacheC7.Prepare reqC7.program_name = some befC7)
    ∧ (befC7.GetFunction reqC7.program_name = some fnC7)
    ∧ (fnC7.argument_types.head? ≠ some "!dist.dist_context")
    ∧ (fnC7.argument_types.length = reqC7.inputs.length)
    ∧ ((HandleRemoteExecute envNoDev cacheC7 reqC7).invoked = none) := by
  decide

/-- C7 amended: with the program found, the function found and the result
count matching, `Function::Execute` is reached exactly as described by
`invocationSpec`: the dispatcher's context is injected as argument 0 iff
the first declared argument type is `!dist.dist_context`, and the function
is invoked iff the declared argument count equals the implicit-context
count plus the input count *and* every input device resolves; on an
argument-count mismatch the request terminates with no invocation and no
response at all (the defect recorded for C1). -/
theorem C7_invocation_characterization (env : Env) (cache : FunctionCache)
    (req : RemoteExecuteInvocation) (bef : BEFFile) (fn : Function)
    (hp : cache.Prepare req.program_name = some bef)
    (hf : bef.GetFunction req.program_name = some fn)
    (hr : fn.result_types.length = req.outputs.length) :
    ((HandleRemoteExecute env cache req).invoked = invocationSpec env req fn)
    ∧ (fn.argument_types.length ≠ numDistContextArgs fn + req.inputs.length →
        (HandleRemoteExecute env cache req).responses = []) := by
  rw [HandleRemoteExecute_some env cache req bef hp,
      handleWithFile_some env req bef fn hf]
  constructor
  · exact handleWithFn_invoked env req fn hr
  · intro ha
    rw [handleWithFn_arg_mismatch env req fn hr ha]

theorem C7_invocation_witness :
    ((HandleRemoteExecute envW cacheW7 reqW7).invoked
        = invocationSpec envW reqW7 fnW7)
    ∧ (fnW7.argument_types.length
          ≠ numDistContextArgs fnW7 + reqW7.inputs.length →
        (HandleRemoteExecute envW cacheW7 reqW7).responses = []) :=
  C7_invocation_characterization envW cacheW7 reqW7 befW7 fnW7
    (by decide) (by decide) (by decide)

/-- C8 (refutation at a concrete input): a request containing an input on
an unresolvable device but whose argument count mismatches the declared
arity hits the line-166 return before the input loop: no response is
delivered at all, not the claimed `{ok := false}` one. -/
theorem C8_no_response_with_bad_device :
    (∃ id ∈ reqC8b.inputs, envNoDev.device_exists id.device = false)
    ∧ (cacheC8b.Prepare reqC8b.program_name = some befC8b)
    ∧ (befC8b.GetFunction reqC8b.program_name = some fnC8b)
    ∧ fnC8b.result_types.length = reqC8b.outputs.length
    ∧ (HandleRemoteExecute envNoDev cacheC8b reqC8b).responses = [] := by
  decide

/-- C8 amended: for every execute request containing an input whose device
the device manager cannot resolve, no result value is ever published into
the remote object store and the function is never invoked — on every code
path; and whenever such a request reaches input resolution (program found,
function found, result and argument counts matching) the delivered
response is exactly one `{ok := false}` with empty metadata.  On the
argument-count-mismatch path no response is delivered at all (the defect
recorded for C1). -/
theorem C8_input_device_amended (env : Env) (cache : FunctionCache)
    (req : RemoteExecuteInvocation)
    (hbad : ∃ id ∈ req.inputs, env.device_exists id.device = false) :
    ((HandleRemoteExecute env cache req).published = []
      ∧ (HandleRemoteExecute env cache req).invoked = none)
    ∧ (∀ bef fn,
        cache.Prepare req.program_name = some bef →
        bef.GetFunction req.program_name = some fn →
        fn.result_types.length = req.outputs.length →
        fn.argument_types.length = numDistContextArgs fn + req.inputs.length →
        HandleRemoteExecute env cache req = failOutcome) := by
  have hin := resolveInputs_eq_none env req.inputs hbad
  constructor
  · cases hp : cache.Prepare req.program_name with
    | none =>
        rw [HandleRemoteExecute_none env cache req hp]
        exact ⟨rfl, rfl⟩
    | some bef =>
        rw [HandleRemoteExecute_some env cache req bef hp]
        cases hf : bef.GetFunction req.program_name with
        | none =>
            rw [handleWithFile_none env req bef hf]
            exact ⟨rfl, rfl⟩
        | some fn =>
            rw [handleWithFile_some env req bef fn hf]
            by_cases hres : fn.result_types.length = req.outputs.length
            · by_cases harg : fn.argument_types.length
                  = numDistContextArgs fn + req.inputs.length
              · rw [handleWithFn_inputs_none env req fn hres harg hin]
                exact ⟨rfl, rfl⟩
              · rw [handleWithFn_arg_mismatch env req fn hres harg]
                exact ⟨rfl, rfl⟩
            · rw [handleWithFn_res_mismatch env req fn hres]
              exact ⟨rfl, rfl⟩
  · intro bef fn hp hf hres harg
    rw [HandleRemoteExecute_some env cache req bef hp,
        handleWithFile_some env req bef fn hf,
        handleWithFn_inputs_none env req fn hres harg hin]

theorem C8_input_device_amended_witness :
    ((HandleRemoteExecute envNoDev cacheC8 reqC8).published = []
      ∧ (HandleRemoteExecute envNoDev cacheC8 reqC8).invoked = none)
    ∧ (∀ bef fn,
        cacheC8.Prepare reqC8.program_name = some bef →
        bef.GetFunction reqC8.program_name = some fn →
        fn.result_types.length = reqC8.outputs.length →
        fn.argument_types.length
            = numDistContextArgs fn + reqC8.inputs.length →
        HandleRemoteExecute envNoDev cacheC8 reqC8 = failOutcome) :=
  C8_input_device_amended envNoDev cacheC8 reqC8
    ⟨⟨3, 4, "nodev"⟩, by decide, by decide⟩

/-- C9: every successful response (`ok = true`) carries as metadata
exactly the list with one serialized entry per metadata-requested output,
in request order, and no entries for outputs with `need_metadata = false`;
its length is the number of metadata-requested outputs. -/
theorem C9_success_metadata (env : Env) (cache : FunctionCache)
    (req : RemoteExecuteInvocation) :
    ∀ r ∈ (HandleRemoteExecute env cache req).responses, r.ok = true →
      ∃ fn args,
        (HandleRemoteExecute env cache req).invoked = some (fn, args)
        ∧ r.metadata = expectedMetadata (env.execute fn args) req.outputs 0
        ∧ r.metadata.length
            = (req.outputs.filter (fun o => o.need_metadata)).length := by
  intro r hr hok
  rcases mem_responses_cases env cache req r hr with h | ⟨fn, args, hinv, hbuild⟩
  · rw [h] at hok; cases hok
  · rw [hbuild] at hok ⊢
    have hm := buildMetadata_ok fn (env.execute fn args) req.outputs 0 [] hok
    refine ⟨fn, args, hinv, ?_, ?_⟩
    · rw [hm]; simp
    · rw [hm]
      simp [expectedMetadata_length]

theorem C9_success_metadata_witness :
    ∃ fn args,
      (HandleRemoteExecute envW cacheC9 reqC9).invoked = some (fn, args)
      ∧ (⟨true, ["m0"]⟩ : RemoteExecuteInvocationResult).metadata
          = expectedMetadata (envW.execute fn args) reqC9.outputs 0
      ∧ (⟨true, ["m0"]⟩ : RemoteExecuteInvocationResult).metadata.length
          = (reqC9.outputs.filter (fun o => o.need_metadata)).length :=
  C9_success_metadata envW cacheC9 reqC9 ⟨true, ["m0"]⟩ (by decide) rfl

/-- C10: when the request reaches the publication loop and the device of
the output after a non-empty prefix `good` cannot be resolved, the results
for the outputs in `good` have already been published into the remote
object store (one `SetRemoteObject` per preceding output, in order) even
though the delivered response is the failure `{ok := false}`: publication
is not atomic with respect to output-device-resolution failure. -/
theorem C10_partial_publication (env : Env) (cache : FunctionCache)
    (req : RemoteExecuteInvocation) (bef : BEFFile) (fn : Function)
    (vals : List Val) (good rest : List OutputDesc) (bad : OutputDesc)
    (hp : cache.Prepare req.program_name = some bef)
    (hf : bef.GetFunction req.program_name = some fn)
    (hr : fn.result_types.length = req.outputs.length)
    (ha : fn.argument_types.length
        = numDistContextArgs fn + req.inputs.length)
    (hin : resolveInputs env req.inputs = some vals)
    (hsplit : req.outputs = good ++ bad :: rest)
    (hgood : ∀ o ∈ good, env.device_exists o.id.device = true)
    (hbad : env.device_exists bad.id.device = false)
    (hpos : good ≠ []) :
    (HandleRemoteExecute env cache req
      = ⟨[⟨false, []⟩],
         publishedPairs (env.execute fn (injectedArgs fn vals)) good 0,
         some (fn, injectedArgs fn vals)⟩)
    ∧ publishedPairs (env.execute fn (injectedArgs fn vals)) good 0 ≠ [] := by
  have hpub : publishOutputs env (env.execute fn (injectedArgs fn vals))
      req.outputs 0
      = (publishedPairs (env.execute fn (injectedArgs fn vals)) good 0,
         false) := by
    rw [hsplit]
    exact publishOutputs_first_bad env _ bad hbad good rest 0 hgood
  constructor
  · rw [HandleRemoteExecute_some env cache req bef hp,
        handleWithFile_some env req bef fn hf,
        handleWithFn_inputs_some env req fn vals hr ha hin,
        dispatchExecute_pub_false env req fn vals (by rw [hpub]; simp),
        hpub]
  · cases good with
    | nil => exact absurd rfl hpos
    | cons o g => simp [publishedPairs]

theorem C10_partial_publication_witness :
    (HandleRemoteExecute envNoDev cacheC10 reqC10
      = ⟨[⟨false, []⟩],
         publishedPairs (envNoDev.execute fnC10 (injectedArgs fnC10 []))
           [outGood] 0,
         some (fnC10, injectedArgs fnC10 [])⟩)
    ∧ publishedPairs (envNoDev.execute fnC10 (injectedArgs fnC10 []))
        [outGood] 0 ≠ [] :=
  C10_partial_publication envNoDev cacheC10 reqC10 befC10 fnC10 [] [outGood]
    [] outBad (by decide) (by decide) (by decide) (by decide) (by decide)
    rfl (by decide) (by decide) (by decide)

end Tfrt
